import Mathlib

/-!
Verification of the mirapuri-stats crawl-and-publish pipeline.

This file gives a shallow embedding, in Lean 4, of the core components of the
repository: the retrying HTTP client (retry-http-client), payload chunking and
the writer client (writer-client.ts), the version manager of the writer app,
the paginated character-list fetcher, the privacy aggregator (aggregator.ts),
the crawl orchestrator (crawler.ts with progress.ts), and the sync runner
(sync-runner.ts).  Effectful dependencies (HTTP clients, the database) are
modelled as explicit inputs: response sequences, state records, and call
traces.  Each numbered theorem settles one claim about the code.
-/

namespace MirapuriStats

/-! ## Rate-limited retry HTTP client (retry-http-client.ts / http-client.ts) -/

/-- Result of one HTTP fetch, as in the shared HTTPResult type: a success
flag, the HTTP status code (`0` encodes a network-level failure), and the
optional body and error message. -/
structure HTTPResult where
  success : Bool
  statusCode : Nat
  html : Option String := none
  error : Option String := none
  deriving DecidableEq

/-- RetryConfig from retry-http-client.ts. -/
structure RetryConfig where
  maxRetries : Nat
  retryDelayMs : Nat
  retryableStatusCodes : List Nat
  deriving DecidableEq

/-- DEFAULT_RETRY_CONFIG: 3 total attempts, 60s delay, retry on 429, 503 and
the synthetic network-error code 0. -/
def DEFAULT_RETRY_CONFIG : RetryConfig :=
  { maxRetries := 3, retryDelayMs := 60000, retryableStatusCodes := [429, 503, 0] }

/-- The while-loop of createRetryHttpClient.fetchWithRateLimit.  The base
client is modelled by the sequence of results of its successive calls:
call number `k` (0-based) returns `responses k`.  `attempt` is the loop
counter, `lastResult` the result of the most recent call, and `calls` the
number of calls made so far.  Mirrors: while attempt < maxRetries - 1, a
success or a non-retryable status returns immediately; otherwise the attempt
counter is bumped and the base client is called again. -/
def retryLoop (cfg : RetryConfig) (responses : Nat → HTTPResult)
    (attempt : Nat) (lastResult : HTTPResult) (calls : Nat) : HTTPResult × Nat :=
  if h : attempt < cfg.maxRetries - 1 then
    if lastResult.success || !(cfg.retryableStatusCodes.contains lastResult.statusCode) then
      (lastResult, calls)
    else
      retryLoop cfg responses (attempt + 1) (responses calls) (calls + 1)
  else
    (lastResult, calls)
termination_by cfg.maxRetries - 1 - attempt
decreasing_by omega

/-- fetchWithRateLimit of the retry client: one initial call, then the retry
loop.  Returns the final result together with the total number of calls made
to the base client. -/
def fetchWithRetry (cfg : RetryConfig) (responses : Nat → HTTPResult) : HTTPResult × Nat :=
  retryLoop cfg responses 0 (responses 0) 1

/-- A result that the retry client retries on: a failure whose status code is
in the configured retryable set. -/
def retryableFailure (cfg : RetryConfig) (r : HTTPResult) : Prop :=
  r.success = false ∧ cfg.retryableStatusCodes.contains r.statusCode = true

instance (cfg : RetryConfig) (r : HTTPResult) : Decidable (retryableFailure cfg r) := by
  unfold retryableFailure; infer_instance

/-! ## Chunking and the writer (publish) client (apps/sync writer-client.ts) -/

/-- An entry of the deduplicated item catalog (ExtractedItem). -/
structure ExtractedItem where
  id : String
  name : String
  slotId : Nat
  deriving DecidableEq

/-- The chunk helper of writer-client.ts: consecutive slices of length
`size` (the last one may be shorter).  The source loop advances its index by
`size` and never terminates when `size = 0`; that case cannot be reached
(all configured chunk sizes are positive constants) and is mapped to `[]`
here.  All theorems assume `0 < size`. -/
def chunkList (size : Nat) (l : List α) : List (List α) :=
  match l with
  | [] => []
  | x :: xs =>
    if size = 0 then [] else
      (x :: xs).take size :: chunkList size ((x :: xs).drop size)
termination_by l.length
decreasing_by
  rw [List.length_drop]
  simp
  omega

/-- postItems of createWriterClient, at the level of chunk requests: the item
array is split into chunks, each chunk is one POST request, and the per-chunk
inserted/skipped results are summed.  The receiving side is modelled by
`respond`, giving the (inserted, skipped) counts returned for a chunk.
Returns (number of requests, total inserted, total skipped). -/
def postItems (chunkSize : Nat) (respond : List ExtractedItem → Nat × Nat)
    (items : List ExtractedItem) : Nat × Nat × Nat :=
  let chunks := chunkList chunkSize items
  (chunks.length,
    (chunks.map (fun c => (respond c).1)).sum,
    (chunks.map (fun c => (respond c).2)).sum)

/-! ### Helper lemmas about the retry loop -/

/-- The retry loop returns the last result unchanged when it is a success or
carries a non-retryable status. -/
lemma retryLoop_stop (cfg : RetryConfig) (responses : Nat → HTTPResult)
    (attempt : Nat) (last : HTTPResult) (calls : Nat)
    (h : last.success = true ∨ cfg.retryableStatusCodes.contains last.statusCode = false) :
    retryLoop cfg responses attempt last calls = (last, calls) := by
  have hcond : (last.success || !(cfg.retryableStatusCodes.contains last.statusCode)) = true := by
    rcases h with h | h
    · rw [h]; rfl
    · rw [h]; simp
  rw [retryLoop]
  split
  · simp [hcond]
  · rfl

/-- The retry loop returns the last result unchanged once the attempt budget
is exhausted. -/
lemma retryLoop_exhaust (cfg : RetryConfig) (responses : Nat → HTTPResult)
    (attempt : Nat) (last : HTTPResult) (calls : Nat)
    (h : ¬ attempt < cfg.maxRetries - 1) :
    retryLoop cfg responses attempt last calls = (last, calls) := by
  rw [retryLoop]
  simp [h]

/-- One retry step: a retryable failure with attempts remaining calls the
base client again. -/
lemma retryLoop_step (cfg : RetryConfig) (responses : Nat → HTTPResult)
    (attempt : Nat) (last : HTTPResult) (calls : Nat)
    (hrem : attempt < cfg.maxRetries - 1) (hfail : retryableFailure cfg last) :
    retryLoop cfg responses attempt last calls
      = retryLoop cfg responses (attempt + 1) (responses calls) (calls + 1) := by
  have hcond : (last.success || !(cfg.retryableStatusCodes.contains last.statusCode)) = false := by
    rw [hfail.1, hfail.2]; rfl
  rw [retryLoop, dif_pos hrem, hcond]
  simp

/-- C6: with 3 total attempts, two retryable failures followed by a success
make exactly 3 underlying calls and return the success; three consecutive
retryable failures make exactly 3 calls and return the last failure; a
success or a non-retryable failure at call k (0-based, k < 3) short-circuits
with exactly k+1 calls and that call's result. -/
theorem retry_client_bound (cfg : RetryConfig) (hMax : cfg.maxRetries = 3) :
    (∀ responses : Nat → HTTPResult,
        retryableFailure cfg (responses 0) → retryableFailure cfg (responses 1) →
        (responses 2).success = true →
        fetchWithRetry cfg responses = (responses 2, 3)) ∧
    (∀ responses : Nat → HTTPResult,
        retryableFailure cfg (responses 0) → retryableFailure cfg (responses 1) →
        retryableFailure cfg (responses 2) →
        fetchWithRetry cfg responses = (responses 2, 3)) ∧
    (∀ responses : Nat → HTTPResult, ∀ k : Nat, k < 3 →
        (∀ j, j < k → retryableFailure cfg (responses j)) →
        ((responses k).success = true ∨
          cfg.retryableStatusCodes.contains (responses k).statusCode = false) →
        fetchWithRetry cfg responses = (responses k, k + 1)) := by
  have h01 : (0 : Nat) < cfg.maxRetries - 1 := by omega
  have h11 : (1 : Nat) < cfg.maxRetries - 1 := by omega
  have h21 : ¬ (2 : Nat) < cfg.maxRetries - 1 := by omega
  refine ⟨?_, ?_, ?_⟩
  · intro responses hf0 hf1 hs2
    rw [fetchWithRetry, retryLoop_step cfg responses 0 _ 1 h01 hf0,
      retryLoop_step cfg responses 1 _ 2 h11 hf1,
      retryLoop_stop cfg responses 2 _ 3 (Or.inl hs2)]
  · intro responses hf0 hf1 hf2
    rw [fetchWithRetry, retryLoop_step cfg responses 0 _ 1 h01 hf0,
      retryLoop_step cfg responses 1 _ 2 h11 hf1,
      retryLoop_exhaust cfg responses 2 _ 3 h21]
  · intro responses k hk hbefore hgood
    interval_cases k
    · rw [fetchWithRetry, retryLoop_stop cfg responses 0 _ 1 hgood]
    · rw [fetchWithRetry, retryLoop_step cfg responses 0 _ 1 h01 (hbefore 0 (by omega)),
        retryLoop_stop cfg responses 1 _ 2 hgood]
    · rw [fetchWithRetry, retryLoop_step cfg responses 0 _ 1 h01 (hbefore 0 (by omega)),
        retryLoop_step cfg responses 1 _ 2 h11 (hbefore 1 (by omega)),
        retryLoop_exhaust cfg responses 2 _ 3 h21]

/-- Concrete base-client behavior used to witness the retry bound: two
503 failures, then a success. -/
def retryWitnessResponses : Nat → HTTPResult := fun n =>
  if n < 2 then { success := false, statusCode := 503 } else { success := true, statusCode := 200 }

/-- Witness for retry_client_bound at the default configuration and the
concrete response sequence above. -/
theorem retry_client_bound_witness :
    DEFAULT_RETRY_CONFIG.maxRetries = 3 ∧
      fetchWithRetry DEFAULT_RETRY_CONFIG retryWitnessResponses = (retryWitnessResponses 2, 3) :=
  ⟨rfl, (retry_client_bound DEFAULT_RETRY_CONFIG rfl).1 retryWitnessResponses
    (by constructor <;> rfl) (by constructor <;> rfl) rfl⟩

/-! ### Helper lemmas about chunking -/

/-- Ceiling-division arithmetic for the chunk-count recursion. -/
lemma ceilDiv_step (s m : Nat) (hs : 0 < s) (hm : 0 < m) :
    (m - s + s - 1) / s + 1 = (m + s - 1) / s := by
  rcases Nat.lt_or_ge m s with h | h
  · have h1 : m - s = 0 := by omega
    have h2 : m + s - 1 = (m - 1) + s := by omega
    rw [h1, h2, Nat.add_div_right _ hs]
    have h3 : (m - 1) / s = 0 := Nat.div_eq_of_lt (by omega)
    have h4 : (0 + s - 1) / s = 0 := Nat.div_eq_of_lt (by omega)
    omega
  · have h2 : m - s + s - 1 = m - 1 := by omega
    have h3 : m + s - 1 = (m - 1) + s := by omega
    rw [h2, h3, Nat.add_div_right _ hs]

/-- The number of chunks is the ceiling of length over size. -/
lemma chunkList_length (size : Nat) (hs : 0 < size) :
    ∀ (n : Nat) (l : List α), l.length ≤ n →
      (chunkList size l).length = (l.length + size - 1) / size := by
  intro n
  induction n with
  | zero =>
    intro l hl
    have : l = [] := by
      cases l with
      | nil => rfl
      | cons x xs => simp at hl
    subst this
    simp [chunkList]
    exact (Nat.div_eq_of_lt (by omega : size - 1 < size)).symm
  | succ n ih =>
    intro l hl
    cases l with
    | nil =>
      simp [chunkList]
      exact (Nat.div_eq_of_lt (by omega : size - 1 < size)).symm
    | cons x xs =>
      rw [chunkList]
      simp only [if_neg hs.ne']
      rw [List.length_cons, ih ((x :: xs).drop size) (by rw [List.length_drop]; simp at hl ⊢; omega)]
      rw [List.length_drop]
      exact ceilDiv_step size (x :: xs).length hs (by simp)

/-- Concatenating the chunks restores the original list. -/
lemma chunkList_flatten (size : Nat) (hs : 0 < size) :
    ∀ (n : Nat) (l : List α), l.length ≤ n → (chunkList size l).flatten = l := by
  intro n
  induction n with
  | zero =>
    intro l hl
    have : l = [] := by
      cases l with
      | nil => rfl
      | cons x xs => simp at hl
    subst this
    simp [chunkList]
  | succ n ih =>
    intro l hl
    cases l with
    | nil => simp [chunkList]
    | cons x xs =>
      rw [chunkList]
      simp only [if_neg hs.ne']
      rw [List.flatten_cons, ih ((x :: xs).drop size) (by rw [List.length_drop]; simp at hl ⊢; omega)]
      exact List.take_append_drop size (x :: xs)

/-- Every chunk has length at most the chunk size. -/
lemma chunkList_le (size : Nat) :
    ∀ (n : Nat) (l : List α), l.length ≤ n → ∀ c ∈ chunkList size l, c.length ≤ size := by
  intro n
  induction n with
  | zero =>
    intro l hl c hc
    cases l with
    | nil => simp [chunkList] at hc
    | cons x xs => simp at hl
  | succ n ih =>
    intro l hl c hc
    cases l with
    | nil => simp [chunkList] at hc
    | cons x xs =>
      rw [chunkList] at hc
      by_cases h0 : size = 0
      · simp [h0] at hc
      · simp only [if_neg h0] at hc
        rcases List.mem_cons.mp hc with hc | hc
        · subst hc; simp
        · exact ih ((x :: xs).drop size) (by rw [List.length_drop]; simp at hl ⊢; omega) c hc

/-- Per-chunk results that account for every element sum to the total
element count. -/
lemma sum_chunk_counts (chunks : List (List ExtractedItem)) (f g : List ExtractedItem → Nat)
    (h : ∀ c ∈ chunks, f c + g c = c.length) :
    (chunks.map f).sum + (chunks.map g).sum = chunks.flatten.length := by
  induction chunks with
  | nil => simp
  | cons c cs ih =>
    simp only [List.map_cons, List.sum_cons, List.flatten_cons, List.length_append]
    have hc := h c (by simp)
    have hcs := ih (fun d hd => h d (by simp [hd]))
    omega

/-- C9: the publish client splits its input into chunks of at most the
configured size whose concatenation is the input, issues exactly
ceil(n / size) chunk requests, and sums per-chunk results; in particular
1200 items with chunk size 1000 yield exactly 2 requests, and when the
receiving side accounts every posted item as inserted or skipped the summed
total equals the number of items posted. -/
theorem writer_client_chunking (size : Nat) (hs : 0 < size)
    (items : List ExtractedItem) (respond : List ExtractedItem → Nat × Nat) :
    (chunkList size items).length = (items.length + size - 1) / size ∧
    (∀ c ∈ chunkList size items, c.length ≤ size) ∧
    (chunkList size items).flatten = items ∧
    (postItems size respond items).1 = (items.length + size - 1) / size ∧
    ((∀ c ∈ chunkList size items, (respond c).1 + (respond c).2 = c.length) →
      (postItems size respond items).2.1 + (postItems size respond items).2.2 = items.length) ∧
    (items.length = 1200 → size = 1000 → (postItems size respond items).1 = 2) := by
  have hlen := chunkList_length size hs items.length items le_rfl
  have hflat := chunkList_flatten size hs items.length items le_rfl
  have hle := chunkList_le size items.length items le_rfl
  refine ⟨hlen, hle, hflat, hlen, ?_, ?_⟩
  · intro hresp
    have := sum_chunk_counts (chunkList size items) (fun c => (respond c).1)
      (fun c => (respond c).2) hresp
    rw [hflat] at this
    exact this
  · intro h1200 h1000
    rw [postItems]
    simp only
    rw [hlen, h1200, h1000]

/-- Concrete receiving side for the chunking witness: every posted item is
reported inserted. -/
def chunkWitnessRespond : List ExtractedItem → Nat × Nat := fun c => (c.length, 0)

/-- Concrete item batch for the chunking witness. -/
def chunkWitnessItems : List ExtractedItem := List.replicate 1200 { id := "i", name := "n", slotId := 1 }

/-- Witness for writer_client_chunking: 1200 items with chunk size 1000. -/
theorem writer_client_chunking_witness :
    (0 < 1000) ∧
      (chunkWitnessItems.length = 1200 → (1000 : Nat) = 1000 →
        (postItems 1000 chunkWitnessRespond chunkWitnessItems).1 = 2) :=
  ⟨by omega,
    (writer_client_chunking 1000 (by omega) chunkWitnessItems chunkWitnessRespond).2.2.2.2.2⟩

/-! ## Version manager (apps/writer version-manager.ts, 3-generation variant) -/

/-- A published usage row, tagged with its dataset version. -/
structure UsageRow where
  version : String
  slotId : Nat
  itemId : String
  usageCount : Nat
  deriving DecidableEq

/-- A published pair row, tagged with its dataset version. -/
structure PublishedPairRow where
  version : String
  baseSlotId : Nat
  partnerSlotId : Nat
  baseItemId : String
  partnerItemId : String
  pairCount : Nat
  rank : Nat
  deriving DecidableEq

/-- A row of the sync_versions metadata table. -/
structure SyncVersionRow where
  version : String
  dataFrom : Option String
  dataTo : Option String
  syncedAt : String
  deriving DecidableEq

/-- The D1 tables the version manager touches: the meta key-value table and
the versioned usage, pairs and sync_versions tables. -/
structure D1State where
  meta : List (String × String)
  usage : List UsageRow
  pairs : List PublishedPairRow
  syncVersions : List SyncVersionRow
  deriving DecidableEq

/-- ACTIVE_VERSION_KEY of version-manager.ts. -/
def ACTIVE_VERSION_KEY : String := "active_version"

/-- DEFAULT_VERSION: the sentinel meaning no published data yet. -/
def DEFAULT_VERSION : String := "0"

/-- VERSIONS_TO_KEEP of the current (3-generation) version manager. -/
def VERSIONS_TO_KEEP : Nat := 3

/-- getActiveVersion: the meta value under the active-version key, or the
default sentinel when absent. -/
def getActiveVersion (st : D1State) : String :=
  (((st.meta.find? (fun kv => kv.1 = ACTIVE_VERSION_KEY)).map Prod.snd)).getD DEFAULT_VERSION

/-- An insert with onConflictDoUpdate on the meta key: update the value of
an existing key, else append the new row. -/
def upsertMeta (m : List (String × String)) (key value : String) : List (String × String) :=
  if m.any (fun kv => kv.1 = key) then
    m.map (fun kv => if kv.1 = key then (kv.1, value) else kv)
  else m ++ [(key, value)]

/-- startSync only mints a fresh identifier (crypto.randomUUID); it performs
no write, so the storage state is unchanged.  The fresh identifier itself is
external input to this model. -/
def startSyncState (st : D1State) : D1State := st

/-- commitSync: upsert the active-version pointer to exactly the given
version, and append a sync_versions row carrying the freshness window
(`now` models new Date().toISOString()). -/
def commitSync (st : D1State) (version : String) (dataFrom dataTo : Option String)
    (now : String) : D1State :=
  { st with
    meta := upsertMeta st.meta ACTIVE_VERSION_KEY version,
    syncVersions := st.syncVersions ++
      [(⟨version, dataFrom, dataTo, now⟩ : SyncVersionRow)] }

/-- abortSync: delete the usage and pairs rows tagged with the given
version; nothing else is touched. -/
def abortSync (st : D1State) (version : String) : D1State :=
  { st with
    usage := st.usage.filter (fun u => ¬ u.version = version),
    pairs := st.pairs.filter (fun p => ¬ p.version = version) }

/-- cleanupOldVersions: read sync_versions ordered by syncedAt descending,
keep the newest VERSIONS_TO_KEEP versions, and delete usage, pairs and
sync_versions rows of every other version.  Rows compare by the syncedAt
string, as the SQL ORDER BY does. -/
def cleanupOldVersions (st : D1State) : D1State :=
  let sorted := st.syncVersions.mergeSort (fun a b => decide (b.syncedAt ≤ a.syncedAt))
  if sorted.length ≤ VERSIONS_TO_KEEP then st
  else
    let keep := (sorted.take VERSIONS_TO_KEEP).map (fun r => r.version)
    if (sorted.drop VERSIONS_TO_KEEP).map (fun r => r.version) = [] then st
    else
      { st with
        usage := st.usage.filter (fun u => keep.contains u.version),
        pairs := st.pairs.filter (fun p => keep.contains p.version),
        syncVersions := st.syncVersions.filter (fun r => keep.contains r.version) }

/-- Updating an existing active-version entry in place makes the lookup
return the new value. -/
lemma find_map_update (m : List (String × String)) (value : String)
    (h : m.any (fun kv => kv.1 = ACTIVE_VERSION_KEY) = true) :
    ((m.map (fun kv => if kv.1 = ACTIVE_VERSION_KEY then (kv.1, value) else kv)).find?
      (fun kv => kv.1 = ACTIVE_VERSION_KEY)) = some (ACTIVE_VERSION_KEY, value) := by
  induction m with
  | nil => simp at h
  | cons kv rest ih =>
    by_cases hk : kv.1 = ACTIVE_VERSION_KEY
    · simp [List.find?_cons, hk]
    · have h2 : rest.any (fun kv => kv.1 = ACTIVE_VERSION_KEY) = true := by
        rcases List.any_eq_true.mp h with ⟨kv1, hm1, hx1⟩
        rcases List.mem_cons.mp hm1 with h1 | h1
        · exact absurd (of_decide_eq_true hx1) (h1 ▸ hk)
        · exact List.any_eq_true.mpr ⟨kv1, h1, hx1⟩
      rw [List.map_cons, if_neg hk, List.find?_cons_of_neg _ (by simp [hk])]
      exact ih h2

/-- Appending a fresh active-version entry to a meta table without one makes
the lookup return the new value. -/
lemma find_append_new (m : List (String × String)) (value : String)
    (h : m.any (fun kv => kv.1 = ACTIVE_VERSION_KEY) = false) :
    ((m ++ [(ACTIVE_VERSION_KEY, value)]).find?
      (fun kv => kv.1 = ACTIVE_VERSION_KEY)) = some (ACTIVE_VERSION_KEY, value) := by
  induction m with
  | nil => simp [List.find?]
  | cons kv rest ih =>
    have hk : ¬ kv.1 = ACTIVE_VERSION_KEY := by
      intro he
      have hx : (kv :: rest).any (fun kv => kv.1 = ACTIVE_VERSION_KEY) = true :=
        List.any_eq_true.mpr ⟨kv, List.mem_cons_self kv rest, by simp [he]⟩
      rw [h] at hx
      exact Bool.false_ne_true hx
    have h2 : rest.any (fun kv => kv.1 = ACTIVE_VERSION_KEY) = false := by
      cases hr : rest.any (fun kv => kv.1 = ACTIVE_VERSION_KEY)
      · rfl
      · rcases List.any_eq_true.mp hr with ⟨kv1, hm1, hx1⟩
        have hx : (kv :: rest).any (fun kv => kv.1 = ACTIVE_VERSION_KEY) = true :=
          List.any_eq_true.mpr ⟨kv1, List.mem_cons_of_mem kv hm1, hx1⟩
        rw [h] at hx
        exact absurd hx Bool.false_ne_true
    rw [List.cons_append, List.find?_cons_of_neg _ (by simp [hk])]
    exact ih h2

/-- Looking up the active-version key after an upsert of that key yields
exactly the upserted value. -/
lemma find_upsertMeta (m : List (String × String)) (value : String) :
    ((upsertMeta m ACTIVE_VERSION_KEY value).find?
      (fun kv => kv.1 = ACTIVE_VERSION_KEY)) = some (ACTIVE_VERSION_KEY, value) := by
  rw [upsertMeta]
  cases hany : m.any (fun kv => kv.1 = ACTIVE_VERSION_KEY)
  · rw [if_neg (by simp [hany])]
    exact find_append_new m value hany
  · rw [if_pos (by simp [hany])]
    exact find_map_update m value hany

/-- C8: abortSync never changes the active version (it only filters the
usage and pairs tables); startSync and cleanupOldVersions never change it
either; commitSync changes it to exactly the version it was given. -/
theorem version_pointer_atomicity :
    (∀ (st : D1State) (v : String),
        getActiveVersion (abortSync st v) = getActiveVersion st ∧
        (abortSync st v).meta = st.meta ∧
        (abortSync st v).syncVersions = st.syncVersions ∧
        (abortSync st v).usage = st.usage.filter (fun u => ¬ u.version = v) ∧
        (abortSync st v).pairs = st.pairs.filter (fun p => ¬ p.version = v)) ∧
    (∀ st : D1State, getActiveVersion (startSyncState st) = getActiveVersion st) ∧
    (∀ st : D1State, getActiveVersion (cleanupOldVersions st) = getActiveVersion st) ∧
    (∀ (st : D1State) (v : String) (dataFrom dataTo : Option String) (now : String),
        getActiveVersion (commitSync st v dataFrom dataTo now) = v) := by
  refine ⟨?_, ?_, ?_, ?_⟩
  · intro st v
    exact ⟨rfl, rfl, rfl, rfl, rfl⟩
  · intro st
    rfl
  · intro st
    rw [cleanupOldVersions]
    split
    · rfl
    · split
      · rfl
      · rfl
  · intro st v dataFrom dataTo now
    rw [getActiveVersion, commitSync]
    simp only [find_upsertMeta]
    rfl

/-! ## Character list fetcher (crawler/character-list-fetcher.ts) -/

/-- One entry of a parsed search-result page: character id and level. -/
structure CharacterInfo where
  characterId : String
  level : Nat
  deriving DecidableEq

/-- A parsed search-result page: its entries and the presence of a
next-page link. -/
structure CharacterListPage where
  characters : List CharacterInfo
  hasNextPage : Bool
  deriving DecidableEq

/-- The inner for-loop of fetchAllCharacterIds: keep the ids of entries with
level at least minLevel until the first entry below it; the Bool reports
whether such an entry was hit (shouldContinue was cleared). -/
def keepUntilBelow (minLevel : Nat) : List CharacterInfo → List String × Bool
  | [] => ([], false)
  | c :: rest =>
    if minLevel ≤ c.level then
      ((keepUntilBelow minLevel rest).1.cons c.characterId, (keepUntilBelow minLevel rest).2)
    else ([], true)

/-- The page loop of fetchAllCharacterIds.  The upstream is modelled as the
list of its successive page responses, starting at page 1; `none` is a
failed fetch, and a page beyond the modelled list is likewise a failed
fetch (the loop breaks on failure either way).  Returns the accumulated
character ids and the number of pages requested. -/
def fetchPagesGo (minLevel : Nat) : List (Option CharacterListPage) → List String × Nat
  | [] => ([], 1)
  | none :: _ => ([], 1)
  | some pd :: rest =>
    if pd.characters = [] then ([], 1)
    else
      let kept := keepUntilBelow minLevel pd.characters
      if kept.2 then (kept.1, 1)
      else if pd.hasNextPage then
        ((kept.1 ++ (fetchPagesGo minLevel rest).1), (fetchPagesGo minLevel rest).2 + 1)
      else (kept.1, 1)

/-- fetchAllCharacterIds of createCharacterListFetcher, over the modelled
page responses. -/
def fetchAllCharacterIds (minLevel : Nat) (pages : List (Option CharacterListPage)) :
    List String × Nat :=
  fetchPagesGo minLevel pages

/-- Ids of a list of page entries, in page order. -/
def pageIds (cs : List CharacterInfo) : List String :=
  cs.map (fun c => c.characterId)

/-- Entries all at or above the threshold are all kept and no early
termination is signalled. -/
lemma keepUntilBelow_all (minLevel : Nat) (cs : List CharacterInfo)
    (h : ∀ c ∈ cs, minLevel ≤ c.level) :
    keepUntilBelow minLevel cs = (pageIds cs, false) := by
  induction cs with
  | nil => rfl
  | cons c rest ih =>
    rw [keepUntilBelow, if_pos (h c (by simp)), ih (fun d hd => h d (by simp [hd]))]
    rfl

/-- A first sub-threshold entry stops the scan: everything before it is
kept, it and everything after it is dropped, and termination is
signalled. -/
lemma keepUntilBelow_break (minLevel : Nat) (kept : List CharacterInfo)
    (bad : CharacterInfo) (rest : List CharacterInfo)
    (hkept : ∀ c ∈ kept, minLevel ≤ c.level) (hbad : bad.level < minLevel) :
    keepUntilBelow minLevel (kept ++ bad :: rest) = (pageIds kept, true) := by
  induction kept with
  | nil =>
    rw [List.nil_append, keepUntilBelow, if_neg (by omega)]
    rfl
  | cons c ks ih =>
    rw [List.cons_append, keepUntilBelow, if_pos (hkept c (by simp)),
      ih (fun d hd => hkept d (by simp [hd]))]
    rfl

/-- C7: when every page before page k is a successful, non-empty page of
above-threshold entries with a next-page link, and page k holds a first
sub-threshold entry, then the fetcher requests exactly k pages (never one
beyond the page holding that entry), returns exactly the prior pages'
entries followed by page k's entries before the sub-threshold one, in
order, and returns no id of the sub-threshold entry or of any entry after
it on that page unless that id also occurs among the kept entries. -/
theorem list_fetcher_early_termination (minLevel : Nat)
    (pre : List CharacterListPage) (pd : CharacterListPage)
    (rest : List (Option CharacterListPage))
    (kept : List CharacterInfo) (bad : CharacterInfo) (after : List CharacterInfo)
    (hpre : ∀ q ∈ pre, q.characters ≠ [] ∧ q.hasNextPage = true ∧
      ∀ c ∈ q.characters, minLevel ≤ c.level)
    (hpd : pd.characters = kept ++ bad :: after)
    (hkept : ∀ c ∈ kept, minLevel ≤ c.level)
    (hbad : bad.level < minLevel) :
    fetchAllCharacterIds minLevel (pre.map some ++ some pd :: rest)
        = (pre.flatMap (fun q => pageIds q.characters) ++ pageIds kept, pre.length + 1) ∧
    (∀ c ∈ bad :: after,
      c.characterId ∉ pre.flatMap (fun q => pageIds q.characters) ++ pageIds kept →
      c.characterId ∉ (fetchAllCharacterIds minLevel (pre.map some ++ some pd :: rest)).1) := by
  have hmain : fetchAllCharacterIds minLevel (pre.map some ++ some pd :: rest)
      = (pre.flatMap (fun q => pageIds q.characters) ++ pageIds kept, pre.length + 1) := by
    rw [fetchAllCharacterIds]
    induction pre with
    | nil =>
      rw [List.map_nil, List.nil_append, fetchPagesGo]
      have hne : ¬ pd.characters = [] := by
        rw [hpd]; exact List.append_ne_nil_of_right_ne_nil kept (by simp)
      rw [if_neg hne]
      rw [hpd, keepUntilBelow_break minLevel kept bad after hkept hbad]
      simp
    | cons q qs ih =>
      have hq := hpre q (by simp)
      rw [List.map_cons, List.cons_append, fetchPagesGo, if_neg hq.1,
        keepUntilBelow_all minLevel q.characters hq.2.2]
      simp only [Bool.false_eq_true, if_false, hq.2.1, if_true]
      rw [ih (fun r hr => hpre r (by simp [hr]))]
      simp [List.flatMap_cons, List.append_assoc]
  refine ⟨hmain, ?_⟩
  intro c _ hnot
  rw [hmain]
  exact hnot

/-- Concrete pages used to witness the early-termination theorem: one full
page of level-100 entries, then a page whose second entry is below the
level-100 threshold. -/
def witnessPages : List (Option CharacterListPage) :=
  [some ⟨[⟨"a1", 100⟩, ⟨"a2", 100⟩], true⟩,
   some ⟨[⟨"b1", 100⟩, ⟨"c1", 50⟩, ⟨"d1", 40⟩], true⟩,
   some ⟨[⟨"e1", 30⟩], false⟩]

/-- Witness for list_fetcher_early_termination on the concrete pages: the
fetch stops after page 2 with exactly the three above-threshold ids. -/
theorem list_fetcher_early_termination_witness :
    fetchAllCharacterIds 100 witnessPages = (["a1", "a2", "b1"], 2) ∧
      ("c1" ∉ (fetchAllCharacterIds 100 witnessPages).1) := by
  have h := list_fetcher_early_termination 100
    [⟨[⟨"a1", 100⟩, ⟨"a2", 100⟩], true⟩]
    ⟨[⟨"b1", 100⟩, ⟨"c1", 50⟩, ⟨"d1", 40⟩], true⟩
    [some ⟨[⟨"e1", 30⟩], false⟩]
    [⟨"b1", 100⟩] ⟨"c1", 50⟩ [⟨"d1", 40⟩]
    (by intro q hq; simp at hq; subst hq; refine ⟨by simp, rfl, by decide⟩)
    rfl (by decide) (by decide)
  refine ⟨h.1, h.2 ⟨"c1", 50⟩ (by simp) (by decide)⟩

/-! ## Privacy aggregator (apps/sync aggregator.ts) -/

/-- Lexicographic order on code points, used for the SQL ORDER BY on the
partner item id (ascending).  The item ids are lowercase-hex ASCII tokens,
for which byte order and code-point order coincide. -/
def listCharLt : List Char → List Char → Bool
  | [], [] => false
  | [], _ :: _ => true
  | _ :: _, [] => false
  | a :: as, b :: bs =>
    if a.val < b.val then true else if b.val < a.val then false else listCharLt as bs

/-- String comparison for the partner-item-id tie-break. -/
def strLtb (a b : String) : Bool := listCharLt a.data b.data

/-- One raw row of characters_glamour: character, slot, item, and the
fetch timestamp used only for the freshness range. -/
structure GlamourRow where
  characterId : String
  slotId : Nat
  itemId : String
  fetchedAt : Nat
  deriving DecidableEq

/-- MIN_COUNT_THRESHOLD: the k-anonymity floor of aggregator.ts. -/
def MIN_COUNT_THRESHOLD : Nat := 3

/-- TOP_PAIRS_LIMIT: ranked pairs kept per base item. -/
def TOP_PAIRS_LIMIT : Nat := 10

/-- EXCLUDED_ITEM_IDS: the always-visible Emperor items excluded from
usage and pair statistics. -/
def EXCLUDED_ITEM_IDS : List String :=
  ["861a1ed2fa2", "f07e64641c4", "97254b85b86", "beefde6d41a", "b48d9e2e0bb"]

/-- PAIR_SLOTS: the four fixed adjacent slot pairs
(head-body, body-hands, body-legs, legs-feet). -/
def PAIR_SLOTS : List (Nat × Nat) := [(1, 2), (2, 3), (2, 4), (4, 5)]

/-- An aggregated usage group. -/
structure AggregatedUsage where
  slotId : Nat
  itemId : String
  usageCount : Nat
  deriving DecidableEq

/-- An aggregated, ranked pair group. -/
structure AggregatedPair where
  baseSlotId : Nat
  partnerSlotId : Nat
  baseItemId : String
  partnerItemId : String
  pairCount : Nat
  rank : Nat
  deriving DecidableEq

/-- Raw rows with the excluded items removed (the WHERE clause of the
usage aggregation). -/
def usageFiltered (rows : List GlamourRow) : List GlamourRow :=
  rows.filter (fun r => !(EXCLUDED_ITEM_IDS.contains r.itemId))

/-- Number of raw rows carrying a given (slot, item) group. -/
def rawUsageCount (rows : List GlamourRow) (s : Nat) (i : String) : Nat :=
  rows.countP (fun r => r.slotId == s && r.itemId == i)

/-- aggregateUsage of createAggregator: group the non-excluded raw rows by
(slot, item), count, and keep only groups meeting the minimum-count
threshold (HAVING count >= 3). -/
def aggregateUsage (rows : List GlamourRow) : List AggregatedUsage :=
  (((usageFiltered rows).map (fun r => (r.slotId, r.itemId))).dedup).filterMap (fun g =>
    if MIN_COUNT_THRESHOLD ≤
        (usageFiltered rows).countP (fun r => r.slotId == g.1 && r.itemId == g.2)
    then some ⟨g.1, g.2,
      (usageFiltered rows).countP (fun r => r.slotId == g.1 && r.itemId == g.2)⟩
    else none)

/-- The self-join of aggregateBidirectionalPairs: all (a-item, b-item)
occurrences where one character has the first item on slot sA and the second
item on slot sB, with excluded items dropped on both sides (the WHERE
clause).  The list is a multiset: its count of (a, b) is the COUNT(*) of the
SQL group. -/
def joinPairs (rows : List GlamourRow) (sA sB : Nat) : List (String × String) :=
  (rows.flatMap (fun ra => rows.map (fun rb => (ra, rb)))).filterMap (fun p =>
    if p.1.slotId = sA ∧ p.2.slotId = sB ∧ p.1.characterId = p.2.characterId
        ∧ p.1.itemId ∉ EXCLUDED_ITEM_IDS ∧ p.2.itemId ∉ EXCLUDED_ITEM_IDS
    then some (p.1.itemId, p.2.itemId) else none)

/-- Raw co-occurrence count of items (a, b) across slots (sA, sB). -/
def joinCount (rows : List GlamourRow) (sA sB : Nat) (a b : String) : Nat :=
  (joinPairs rows sA sB).count (a, b)

/-- One row of the base_pairs CTE: an item pair with its count. -/
structure BasePair where
  itemA : String
  itemB : String
  pairCount : Nat
  deriving DecidableEq

/-- The base_pairs CTE: distinct item pairs of the self-join whose count
meets the threshold (GROUP BY a.item_id, b.item_id HAVING COUNT(*) >= 3). -/
def basePairs (rows : List GlamourRow) (sA sB : Nat) : List BasePair :=
  ((joinPairs rows sA sB).dedup).filterMap (fun ab =>
    if MIN_COUNT_THRESHOLD ≤ (joinPairs rows sA sB).count ab
    then some ⟨ab.1, ab.2, (joinPairs rows sA sB).count ab⟩ else none)

/-- One row of the directed CTE. -/
structure DirectedPair where
  baseSlotId : Nat
  partnerSlotId : Nat
  baseItemId : String
  partnerItemId : String
  pairCount : Nat
  deriving DecidableEq

/-- The directed CTE: every base pair emitted in both directions with the
same count (UNION ALL of the two SELECTs). -/
def directedPairs (rows : List GlamourRow) (sA sB : Nat) : List DirectedPair :=
  (basePairs rows sA sB).map (fun t => ⟨sA, sB, t.itemA, t.itemB, t.pairCount⟩) ++
  (basePairs rows sA sB).map (fun t => ⟨sB, sA, t.itemB, t.itemA, t.pairCount⟩)

/-- The window function ROW_NUMBER() OVER (PARTITION BY base_slot_id,
partner_slot_id, base_item_id ORDER BY pair_count DESC,
partner_item_id ASC) of the ranked CTE.  Within every
partition produced for two distinct slots each partner item occurs exactly
once, so the ORDER BY is a strict total order there and the row number of a
row is 1 plus the number of partition mates strictly before it. -/
def rowNumber (ds : List DirectedPair) (d : DirectedPair) : Nat :=
  1 + ds.countP (fun e =>
    e.baseSlotId == d.baseSlotId && e.partnerSlotId == d.partnerSlotId &&
    e.baseItemId == d.baseItemId &&
    (decide (d.pairCount < e.pairCount) ||
      (e.pairCount == d.pairCount && strLtb e.partnerItemId d.partnerItemId)))

/-- aggregateBidirectionalPairs: rank the directed rows within their
partition and keep only ranks up to TOP_PAIRS_LIMIT. -/
def aggregateBidirectionalPairs (rows : List GlamourRow) (sA sB : Nat) : List AggregatedPair :=
  ((directedPairs rows sA sB).map (fun d =>
    (⟨d.baseSlotId, d.partnerSlotId, d.baseItemId, d.partnerItemId, d.pairCount,
      rowNumber (directedPairs rows sA sB) d⟩ : AggregatedPair))).filter
    (fun p => p.rank ≤ TOP_PAIRS_LIMIT)

/-- aggregatePairs of createAggregator: the bidirectional aggregation over
the four fixed slot pairs. -/
def aggregatePairs (rows : List GlamourRow) : List AggregatedPair :=
  PAIR_SLOTS.flatMap (fun sp => aggregateBidirectionalPairs rows sp.1 sp.2)

/-- Membership in base_pairs forces the threshold and ties the stored count
to the raw join count. -/
lemma basePairs_mem (rows : List GlamourRow) (sA sB : Nat) (t : BasePair)
    (ht : t ∈ basePairs rows sA sB) :
    MIN_COUNT_THRESHOLD ≤ t.pairCount ∧
      t.pairCount = joinCount rows sA sB t.itemA t.itemB := by
  rcases List.mem_filterMap.mp ht with ⟨ab, _, hab⟩
  by_cases hth : MIN_COUNT_THRESHOLD ≤ (joinPairs rows sA sB).count ab
  · rw [if_pos hth] at hab
    cases hab
    exact ⟨hth, rfl⟩
  · rw [if_neg hth] at hab
    cases hab

/-- A pair meeting the threshold is a member of base_pairs with its raw
join count. -/
lemma basePairs_intro (rows : List GlamourRow) (sA sB : Nat) (a b : String)
    (hc : MIN_COUNT_THRESHOLD ≤ joinCount rows sA sB a b) :
    (⟨a, b, joinCount rows sA sB a b⟩ : BasePair) ∈ basePairs rows sA sB := by
  have h3 : (3 : Nat) ≤ (joinPairs rows sA sB).count (a, b) := hc
  have hmem : (a, b) ∈ joinPairs rows sA sB := List.count_pos_iff.mp (by omega)
  exact List.mem_filterMap.mpr ⟨(a, b), List.mem_dedup.mpr hmem,
    by
      rw [if_pos (show MIN_COUNT_THRESHOLD ≤ List.count (a, b) (joinPairs rows sA sB) from hc)]
      rfl⟩

/-- C4: for every adjacent slot pair and every item pair co-occurring at a
count meeting the threshold, both directed rows (a as base, b as partner,
and b as base, a as partner) enter the ranking with that same count, each
appears in the pair output exactly when its own-partition rank is at most
10, and any such surviving row is part of the aggregated pair output. -/
theorem pair_directional_independence (rows : List GlamourRow) (sA sB : Nat) (a b : String)
    (hslots : (sA, sB) ∈ PAIR_SLOTS)
    (hc : MIN_COUNT_THRESHOLD ≤ joinCount rows sA sB a b) :
    (⟨sA, sB, a, b, joinCount rows sA sB a b⟩ : DirectedPair) ∈ directedPairs rows sA sB ∧
    (⟨sB, sA, b, a, joinCount rows sA sB a b⟩ : DirectedPair) ∈ directedPairs rows sA sB ∧
    ((⟨sA, sB, a, b, joinCount rows sA sB a b,
        rowNumber (directedPairs rows sA sB) ⟨sA, sB, a, b, joinCount rows sA sB a b⟩⟩ :
          AggregatedPair) ∈ aggregateBidirectionalPairs rows sA sB ↔
      rowNumber (directedPairs rows sA sB) ⟨sA, sB, a, b, joinCount rows sA sB a b⟩
        ≤ TOP_PAIRS_LIMIT) ∧
    ((⟨sB, sA, b, a, joinCount rows sA sB a b,
        rowNumber (directedPairs rows sA sB) ⟨sB, sA, b, a, joinCount rows sA sB a b⟩⟩ :
          AggregatedPair) ∈ aggregateBidirectionalPairs rows sA sB ↔
      rowNumber (directedPairs rows sA sB) ⟨sB, sA, b, a, joinCount rows sA sB a b⟩
        ≤ TOP_PAIRS_LIMIT) ∧
    (∀ p ∈ aggregateBidirectionalPairs rows sA sB, p ∈ aggregatePairs rows) := by
  have hbase := basePairs_intro rows sA sB a b hc
  have hd1 : (⟨sA, sB, a, b, joinCount rows sA sB a b⟩ : DirectedPair)
      ∈ directedPairs rows sA sB :=
    List.mem_append_left _ (List.mem_map.mpr ⟨_, hbase, rfl⟩)
  have hd2 : (⟨sB, sA, b, a, joinCount rows sA sB a b⟩ : DirectedPair)
      ∈ directedPairs rows sA sB :=
    List.mem_append_right _ (List.mem_map.mpr ⟨_, hbase, rfl⟩)
  refine ⟨hd1, hd2, ?_, ?_, ?_⟩
  · constructor
    · intro hmem
      exact of_decide_eq_true (List.mem_filter.mp hmem).2
    · intro hrank
      exact List.mem_filter.mpr ⟨List.mem_map.mpr ⟨_, hd1, rfl⟩, decide_eq_true hrank⟩
  · constructor
    · intro hmem
      exact of_decide_eq_true (List.mem_filter.mp hmem).2
    · intro hrank
      exact List.mem_filter.mpr ⟨List.mem_map.mpr ⟨_, hd2, rfl⟩, decide_eq_true hrank⟩
  · intro p hp
    exact List.mem_flatMap.mpr ⟨(sA, sB), hslots, hp⟩

/-- Concrete raw rows for the directional-independence witness: three
characters wearing head item H1 with body item B1. -/
def pairWitnessRows : List GlamourRow :=
  [⟨"c1", 1, "H1", 0⟩, ⟨"c1", 2, "B1", 0⟩,
   ⟨"c2", 1, "H1", 0⟩, ⟨"c2", 2, "B1", 0⟩,
   ⟨"c3", 1, "H1", 0⟩, ⟨"c3", 2, "B1", 0⟩]

/-- Witness for pair_directional_independence on the concrete rows: both
directed rows are ranked candidates. -/
theorem pair_directional_independence_witness :
    (⟨1, 2, "H1", "B1", joinCount pairWitnessRows 1 2 "H1" "B1"⟩ : DirectedPair)
        ∈ directedPairs pairWitnessRows 1 2 ∧
    (⟨2, 1, "B1", "H1", joinCount pairWitnessRows 1 2 "H1" "B1"⟩ : DirectedPair)
        ∈ directedPairs pairWitnessRows 1 2 :=
  ⟨(pair_directional_independence pairWitnessRows 1 2 "H1" "B1" (by decide) (by decide)).1,
   (pair_directional_independence pairWitnessRows 1 2 "H1" "B1" (by decide) (by decide)).2.1⟩

/-- Counting a (slot, item) group with a non-excluded item over the
filtered rows equals counting it over all raw rows. -/
lemma countP_usageFiltered (rows : List GlamourRow) (s : Nat) (i : String)
    (hex : EXCLUDED_ITEM_IDS.contains i = false) :
    (usageFiltered rows).countP (fun r => r.slotId == s && r.itemId == i)
      = rawUsageCount rows s i := by
  rw [usageFiltered, rawUsageCount, List.countP_filter]
  have hpred : (fun (r : GlamourRow) =>
        (r.slotId == s && r.itemId == i) && !EXCLUDED_ITEM_IDS.contains r.itemId)
      = (fun (r : GlamourRow) => r.slotId == s && r.itemId == i) := by
    funext r
    cases hi : r.itemId == i
    · simp [hi]
    · have hri : r.itemId = i := eq_of_beq hi
      have hex2 : i ∉ EXCLUDED_ITEM_IDS := by
        intro hmem
        rw [List.contains_eq_any_beq] at hex
        have : EXCLUDED_ITEM_IDS.any (fun x => i == x) = true :=
          List.any_eq_true.mpr ⟨i, hmem, by simp⟩
        rw [hex] at this
        exact Bool.false_ne_true this
      simp [hi, hri, hex2]
  rw [hpred]

/-- Every emitted usage group meets the threshold and carries its raw
count. -/
lemma aggregateUsage_mem (rows : List GlamourRow) (u : AggregatedUsage)
    (hu : u ∈ aggregateUsage rows) :
    MIN_COUNT_THRESHOLD ≤ u.usageCount ∧
      u.usageCount = rawUsageCount rows u.slotId u.itemId := by
  rcases List.mem_filterMap.mp hu with ⟨g, hg, hif⟩
  by_cases hth : MIN_COUNT_THRESHOLD ≤
      (usageFiltered rows).countP (fun r => r.slotId == g.1 && r.itemId == g.2)
  · rw [if_pos hth] at hif
    cases hif
    have hex : EXCLUDED_ITEM_IDS.contains g.2 = false := by
      rcases List.mem_map.mp (List.mem_dedup.mp hg) with ⟨r, hr, hrg⟩
      have hf := (List.mem_filter.mp hr).2
      cases hb : EXCLUDED_ITEM_IDS.contains r.itemId
      · rw [← hrg]
        exact hb
      · rw [hb] at hf
        exact absurd hf (by simp)
    exact ⟨hth, countP_usageFiltered rows g.1 g.2 hex⟩
  · rw [if_neg hth] at hif
    cases hif

/-- C5: every emitted usage group and every emitted pair group carries a
raw occurrence count of at least 3 (the usage count is the raw group count,
and the pair count is the raw directed co-occurrence count); a (slot, item)
group with raw count below 3 is never emitted; and the concrete dataset of
exactly two characters sharing head H1 and body B1 yields no pair row at
all. -/
theorem privacy_floor (rows : List GlamourRow) :
    (∀ u ∈ aggregateUsage rows,
      MIN_COUNT_THRESHOLD ≤ u.usageCount ∧
        u.usageCount = rawUsageCount rows u.slotId u.itemId) ∧
    (∀ p ∈ aggregatePairs rows,
      MIN_COUNT_THRESHOLD ≤ p.pairCount ∧
        (p.pairCount = joinCount rows p.baseSlotId p.partnerSlotId p.baseItemId p.partnerItemId ∨
         p.pairCount = joinCount rows p.partnerSlotId p.baseSlotId p.partnerItemId p.baseItemId)) ∧
    (∀ (s : Nat) (i : String), rawUsageCount rows s i < MIN_COUNT_THRESHOLD →
      ∀ u ∈ aggregateUsage rows, ¬ (u.slotId = s ∧ u.itemId = i)) ∧
    aggregatePairs
      [⟨"c1", 1, "H1", 0⟩, ⟨"c1", 2, "B1", 0⟩, ⟨"c2", 1, "H1", 0⟩, ⟨"c2", 2, "B1", 0⟩] = [] := by
  refine ⟨fun u hu => aggregateUsage_mem rows u hu, ?_, ?_, by decide⟩
  · intro p hp
    rcases List.mem_flatMap.mp hp with ⟨sp, _, hpin⟩
    rcases List.mem_filter.mp hpin with ⟨hpmap, _⟩
    rcases List.mem_map.mp hpmap with ⟨d, hd, hdp⟩
    rcases List.mem_append.mp hd with hd1 | hd2
    · rcases List.mem_map.mp hd1 with ⟨t, ht, hdt⟩
      have hbp := basePairs_mem rows sp.1 sp.2 t ht
      subst hdp
      subst hdt
      exact ⟨hbp.1, Or.inl hbp.2⟩
    · rcases List.mem_map.mp hd2 with ⟨t, ht, hdt⟩
      have hbp := basePairs_mem rows sp.1 sp.2 t ht
      subst hdp
      subst hdt
      exact ⟨hbp.1, Or.inr hbp.2⟩
  · intro s i hlow u hu hmatch
    have hm := aggregateUsage_mem rows u hu
    rw [hmatch.1, hmatch.2] at hm
    omega

/-- Witness for privacy_floor: with three characters sharing a head item,
the emitted group for it meets the floor and carries the raw count. -/
theorem privacy_floor_witness :
    MIN_COUNT_THRESHOLD ≤ (⟨1, "H1", 3⟩ : AggregatedUsage).usageCount ∧
      (⟨1, "H1", 3⟩ : AggregatedUsage).usageCount = rawUsageCount pairWitnessRows 1 "H1" :=
  (privacy_floor pairWitnessRows).1 ⟨1, "H1", 3⟩ (by decide)

/-! ## Crawl orchestrator (crawler.ts with progress.ts) -/

/-- Terminal crawl state. -/
inductive ExitReason
  | COMPLETED
  | LIMIT_REACHED
  deriving DecidableEq

/-- One point of the crawl search space (SearchKey), with its canonical
index. -/
structure SearchKey where
  index : Nat
  worldname : String
  classjob : Nat
  raceTribe : String
  gcid : Nat
  deriving DecidableEq

/-- Result of scraping one character page (ScrapeResult). -/
structure ScrapeResult where
  success : Bool
  characterId : String
  savedCount : Nat
  errorMessages : List String
  deriving DecidableEq

/-- CrawlerStats of crawler.ts. -/
structure CrawlerStats where
  processedKeys : Nat
  totalKeys : Nat
  processedCharacters : Nat
  skippedCharacters : Nat
  errors : Nat
  exitReason : ExitReason
  deriving DecidableEq

/-- A loaded progress record (ProgressData of progress.ts); the shuffled
index is an integer because the final checkpoint can store -1. -/
structure ProgressData where
  crawlerName : String
  lastCompletedShuffledIndex : Int
  totalKeys : Nat
  processedCharacters : Nat
  updatedAt : String
  seed : Nat
  exitReason : Option ExitReason
  deriving DecidableEq

/-- A progress record as written by saveProgress (ProgressSaveData). -/
structure ProgressSaveData where
  crawlerName : String
  lastCompletedShuffledIndex : Int
  totalKeys : Nat
  processedCharacters : Nat
  seed : Nat
  exitReason : Option ExitReason
  deriving DecidableEq

/-- CrawlerConfig; limit and seed default to DEFAULT_LIMIT and DEFAULT_SEED
when absent. -/
structure CrawlerConfig where
  crawlerName : String
  dryRun : Bool
  limit : Option Nat
  seed : Option Nat

/-- Default character limit of crawler.ts. -/
def DEFAULT_LIMIT : Nat := 5000

/-- Default shuffle seed of shuffle.ts. -/
def DEFAULT_SEED : Nat := 42

/-- The crawler's injected dependencies, modelled as pure response
functions: the generated (shuffled) key list, the character-id list per
key, the scrape result per character, and the raw-store existence check. -/
structure CrawlerDeps where
  keys : List SearchKey
  fetchAllCharacterIds : SearchKey → List String
  scrape : String → ScrapeResult
  characterExists : String → Bool

/-- The per-character body of the crawler loop: an existing character is
skipped; otherwise a successful scrape with saved rows counts as processed,
a successful scrape with none as skipped, and a failure as an error. -/
def processCharacter (deps : CrawlerDeps) (st : CrawlerStats) (cid : String) : CrawlerStats :=
  if deps.characterExists cid then
    { st with skippedCharacters := st.skippedCharacters + 1 }
  else
    if (deps.scrape cid).success then
      if 0 < (deps.scrape cid).savedCount then
        { st with processedCharacters := st.processedCharacters + 1 }
      else
        { st with skippedCharacters := st.skippedCharacters + 1 }
    else
      { st with errors := st.errors + 1 }

/-- Processing one key: fetch its character ids and fold the per-character
body over them. -/
def processKey (deps : CrawlerDeps) (st : CrawlerStats) (key : SearchKey) : CrawlerStats :=
  (deps.fetchAllCharacterIds key).foldl (processCharacter deps) st

/-- The key loop of createCrawler.start over the enumerated (shuffled
position, key) list: positions below the resume index are skipped; each
processed key bumps processedKeys, emits a progress checkpoint carrying its
shuffled position, and then the limit is checked; reaching it breaks out of
the loop with exitReason LIMIT_REACHED.  Returns the final stats and the
checkpoint trace, in write order. -/
def crawlLoop (crawlerName : String) (seed : Nat) (limit : Nat) (deps : CrawlerDeps)
    (startIdx : Int) : List (Nat × SearchKey) → CrawlerStats →
      CrawlerStats × List ProgressSaveData
  | [], st => (st, [])
  | (i, key) :: rest, st =>
    if (i : Int) < startIdx then crawlLoop crawlerName seed limit deps startIdx rest st
    else
      let st1 := processKey deps st key
      let st2 := { st1 with processedKeys := st1.processedKeys + 1 }
      let sv : ProgressSaveData :=
        ⟨crawlerName, (i : Int), st2.totalKeys, st2.processedCharacters, seed, none⟩
      if limit ≤ st2.processedCharacters then
        ({ st2 with exitReason := ExitReason.LIMIT_REACHED }, [sv])
      else
        ((crawlLoop crawlerName seed limit deps startIdx rest st2).1,
          sv :: (crawlLoop crawlerName seed limit deps startIdx rest st2).2)

/-- createCrawler.start.  The loaded progress record models the result of
loadProgress; dry-run mode only enumerates keys and neither loads nor saves
progress.  A resumed run starts at lastCompletedShuffledIndex + 1 and seeds
its processed-character counter from the stored value.  After the loop one
final checkpoint is written; its stored index is processedKeys - 1 (or -1
when no key was processed) and it carries the exit reason. -/
def crawlerStart (config : CrawlerConfig) (deps : CrawlerDeps)
    (existingProgress : Option ProgressData) : CrawlerStats × List ProgressSaveData :=
  let limit := config.limit.getD DEFAULT_LIMIT
  let seed := config.seed.getD DEFAULT_SEED
  let st0 : CrawlerStats := ⟨0, deps.keys.length, 0, 0, 0, ExitReason.COMPLETED⟩
  if config.dryRun then (st0, [])
  else
    let startIdx : Int := match existingProgress with
      | some p => p.lastCompletedShuffledIndex + 1
      | none => 0
    let st1 : CrawlerStats := match existingProgress with
      | some p => { st0 with processedCharacters := p.processedCharacters }
      | none => st0
    let res := crawlLoop config.crawlerName seed limit deps startIdx deps.keys.enum st1
    let finalSave : ProgressSaveData :=
      ⟨config.crawlerName,
        (if 0 < res.1.processedKeys then (res.1.processedKeys : Int) - 1 else -1),
        res.1.totalKeys, res.1.processedCharacters, seed, some res.1.exitReason⟩
    (res.1, res.2 ++ [finalSave])

/-- The per-character body leaves the key counter, the key total and the
exit reason unchanged, and never decreases the processed-character
counter. -/
lemma processCharacter_frame (deps : CrawlerDeps) (st : CrawlerStats) (cid : String) :
    (processCharacter deps st cid).processedKeys = st.processedKeys ∧
    (processCharacter deps st cid).totalKeys = st.totalKeys ∧
    (processCharacter deps st cid).exitReason = st.exitReason ∧
    st.processedCharacters ≤ (processCharacter deps st cid).processedCharacters := by
  rw [processCharacter]
  split
  · exact ⟨rfl, rfl, rfl, le_refl _⟩
  · split
    · split
      · exact ⟨rfl, rfl, rfl, by simp⟩
      · exact ⟨rfl, rfl, rfl, le_refl _⟩
    · exact ⟨rfl, rfl, rfl, le_refl _⟩

/-- Key processing preserves the same fields and never decreases the
processed-character counter. -/
lemma processKey_frame (deps : CrawlerDeps) (st : CrawlerStats) (key : SearchKey) :
    (processKey deps st key).processedKeys = st.processedKeys ∧
    (processKey deps st key).totalKeys = st.totalKeys ∧
    (processKey deps st key).exitReason = st.exitReason ∧
    st.processedCharacters ≤ (processKey deps st key).processedCharacters := by
  rw [processKey]
  induction deps.fetchAllCharacterIds key generalizing st with
  | nil => exact ⟨rfl, rfl, rfl, le_refl _⟩
  | cons c cs ih =>
    rw [List.foldl_cons]
    have h1 := processCharacter_frame deps st c
    have h2 := ih (processCharacter deps st c)
    exact ⟨h2.1.trans h1.1, h2.2.1.trans h1.2.1, h2.2.2.1.trans h1.2.2.1,
      h1.2.2.2.trans h2.2.2.2⟩

/-- Unfolding the key loop at a skipped position. -/
lemma crawlLoop_cons_skip (crawlerName : String) (seed limit : Nat) (deps : CrawlerDeps)
    (startIdx : Int) (i : Nat) (key : SearchKey) (rest : List (Nat × SearchKey))
    (st : CrawlerStats) (h : (i : Int) < startIdx) :
    crawlLoop crawlerName seed limit deps startIdx ((i, key) :: rest) st
      = crawlLoop crawlerName seed limit deps startIdx rest st := by
  rw [crawlLoop, if_pos h]

/-- Unfolding the key loop at a processed position that reaches the limit:
the loop breaks with LIMIT_REACHED right after this key's checkpoint. -/
lemma crawlLoop_cons_limit (crawlerName : String) (seed limit : Nat) (deps : CrawlerDeps)
    (startIdx : Int) (i : Nat) (key : SearchKey) (rest : List (Nat × SearchKey))
    (st : CrawlerStats) (h : ¬ (i : Int) < startIdx)
    (hlim : limit ≤ (processKey deps st key).processedCharacters) :
    crawlLoop crawlerName seed limit deps startIdx ((i, key) :: rest) st
      = ({ processKey deps st key with
            processedKeys := (processKey deps st key).processedKeys + 1,
            exitReason := ExitReason.LIMIT_REACHED },
         [⟨crawlerName, (i : Int), (processKey deps st key).totalKeys,
            (processKey deps st key).processedCharacters, seed, none⟩]) := by
  rw [crawlLoop, if_neg h]
  simp only
  rw [if_pos hlim]

/-- Unfolding the key loop at a processed position that stays below the
limit: the loop continues with this key's checkpoint prepended. -/
lemma crawlLoop_cons_go (crawlerName : String) (seed limit : Nat) (deps : CrawlerDeps)
    (startIdx : Int) (i : Nat) (key : SearchKey) (rest : List (Nat × SearchKey))
    (st : CrawlerStats) (h : ¬ (i : Int) < startIdx)
    (hlim : ¬ limit ≤ (processKey deps st key).processedCharacters) :
    crawlLoop crawlerName seed limit deps startIdx ((i, key) :: rest) st
      = ((crawlLoop crawlerName seed limit deps startIdx rest
            { processKey deps st key with
              processedKeys := (processKey deps st key).processedKeys + 1 }).1,
         (⟨crawlerName, (i : Int), (processKey deps st key).totalKeys,
            (processKey deps st key).processedCharacters, seed, none⟩ :
              ProgressSaveData) ::
          (crawlLoop crawlerName seed limit deps startIdx rest
            { processKey deps st key with
              processedKeys := (processKey deps st key).processedKeys + 1 }).2) := by
  rw [crawlLoop, if_neg h]
  simp only
  rw [if_neg hlim]

/-- Membership in the dropLast of a cons list comes from the head or from
the dropLast of the tail. -/
lemma mem_dropLast_cons (a : α) (l : List α) (s : α) (hs : s ∈ (a :: l).dropLast) :
    s = a ∨ s ∈ l.dropLast := by
  cases l with
  | nil => simp at hs
  | cons b bs =>
    rw [show (a :: b :: bs).dropLast = a :: (b :: bs).dropLast from rfl] at hs
    exact List.mem_cons.mp hs

/-- Behavior of the key loop around the character limit: starting from a
running state, the loop ends COMPLETED exactly when every checkpoint it
writes is below the limit, and every checkpoint but possibly the last one
is below the limit (the loop never continues past a key that reached
it). -/
lemma crawlLoop_limit (crawlerName : String) (seed limit : Nat) (deps : CrawlerDeps)
    (startIdx : Int) :
    ∀ (l : List (Nat × SearchKey)) (st : CrawlerStats),
      st.exitReason = ExitReason.COMPLETED →
      (((crawlLoop crawlerName seed limit deps startIdx l st).1.exitReason
            = ExitReason.COMPLETED ↔
          ∀ s ∈ (crawlLoop crawlerName seed limit deps startIdx l st).2,
            s.processedCharacters < limit) ∧
        ∀ s ∈ (crawlLoop crawlerName seed limit deps startIdx l st).2.dropLast,
          s.processedCharacters < limit) := by
  intro l
  induction l with
  | nil =>
    intro st h
    rw [crawlLoop]
    constructor
    · constructor
      · intro _ s hs
        exact absurd hs (List.not_mem_nil s)
      · intro _
        exact h
    · intro s hs
      exact absurd hs (List.not_mem_nil s)
  | cons ik rest ih =>
    intro st h
    rcases ik with ⟨i, key⟩
    by_cases hskip : (i : Int) < startIdx
    · rw [crawlLoop_cons_skip crawlerName seed limit deps startIdx i key rest st hskip]
      exact ih st h
    · by_cases hlim : limit ≤ (processKey deps st key).processedCharacters
      · rw [crawlLoop_cons_limit crawlerName seed limit deps startIdx i key rest st hskip hlim]
        constructor
        · simp only [List.mem_singleton]
          constructor
          · intro hfalse
            cases hfalse
          · intro hall
            have := hall _ rfl
            simp only at this
            omega
        · intro s hs
          simp at hs
      · rw [crawlLoop_cons_go crawlerName seed limit deps startIdx i key rest st hskip hlim]
        have hst2 : ({ processKey deps st key with
            processedKeys := (processKey deps st key).processedKeys + 1} :
              CrawlerStats).exitReason = ExitReason.COMPLETED := by
          simp only
          rw [(processKey_frame deps st key).2.2.1]
          exact h
        have hih := ih _ hst2
        constructor
        · rw [hih.1]
          constructor
          · intro hall s hs
            rcases List.mem_cons.mp hs with hs | hs
            · subst hs
              simp only
              omega
            · exact hall s hs
          · intro hall s hs
            exact hall s (List.mem_cons_of_mem _ hs)
        · intro s hs
          rcases mem_dropLast_cons _ _ s hs with hs | hs
          · subst hs
            simp only
            omega
          · exact hih.2 s hs

/-- Unfolding of crawlerStart for a non-dry-run resumed run. -/
lemma crawlerStart_resumed (config : CrawlerConfig) (deps : CrawlerDeps) (p : ProgressData)
    (hdry : config.dryRun = false) :
    crawlerStart config deps (some p) =
      (let res := crawlLoop config.crawlerName (config.seed.getD DEFAULT_SEED)
          (config.limit.getD DEFAULT_LIMIT) deps (p.lastCompletedShuffledIndex + 1)
          deps.keys.enum ⟨0, deps.keys.length, p.processedCharacters, 0, 0, ExitReason.COMPLETED⟩;
        (res.1, res.2 ++
          [⟨config.crawlerName,
            (if 0 < res.1.processedKeys then (res.1.processedKeys : Int) - 1 else -1),
            res.1.totalKeys, res.1.processedCharacters, config.seed.getD DEFAULT_SEED,
            some res.1.exitReason⟩])) := by
  rw [crawlerStart, if_neg (by simp [hdry])]

/-- Unfolding of crawlerStart for a non-dry-run first run. -/
lemma crawlerStart_fresh (config : CrawlerConfig) (deps : CrawlerDeps)
    (hdry : config.dryRun = false) :
    crawlerStart config deps none =
      (let res := crawlLoop config.crawlerName (config.seed.getD DEFAULT_SEED)
          (config.limit.getD DEFAULT_LIMIT) deps 0
          deps.keys.enum ⟨0, deps.keys.length, 0, 0, 0, ExitReason.COMPLETED⟩;
        (res.1, res.2 ++
          [⟨config.crawlerName,
            (if 0 < res.1.processedKeys then (res.1.processedKeys : Int) - 1 else -1),
            res.1.totalKeys, res.1.processedCharacters, config.seed.getD DEFAULT_SEED,
            some res.1.exitReason⟩])) := by
  rw [crawlerStart, if_neg (by simp [hdry])]

/-- A state already at or over the limit processes exactly one further
(non-skipped) key and then stops with LIMIT_REACHED. -/
lemma crawlLoop_over_limit (crawlerName : String) (seed limit : Nat) (deps : CrawlerDeps)
    (startIdx : Int) :
    ∀ (l : List (Nat × SearchKey)) (st : CrawlerStats),
      limit ≤ st.processedCharacters →
      (∃ ik ∈ l, ¬ ((ik.1 : Int) < startIdx)) →
      ((crawlLoop crawlerName seed limit deps startIdx l st).1.processedKeys
          = st.processedKeys + 1 ∧
        (crawlLoop crawlerName seed limit deps startIdx l st).1.exitReason
          = ExitReason.LIMIT_REACHED ∧
        st.processedCharacters ≤
          (crawlLoop crawlerName seed limit deps startIdx l st).1.processedCharacters) := by
  intro l
  induction l with
  | nil =>
    intro st h hex
    rcases hex with ⟨ik, hik, _⟩
    simp at hik
  | cons ik rest ih =>
    intro st h hex
    rcases ik with ⟨i, key⟩
    by_cases hskip : (i : Int) < startIdx
    · rw [crawlLoop_cons_skip crawlerName seed limit deps startIdx i key rest st hskip]
      apply ih st h
      rcases hex with ⟨jk, hjk, hj⟩
      rcases List.mem_cons.mp hjk with hjk | hjk
      · subst hjk
        exact absurd hskip hj
      · exact ⟨jk, hjk, hj⟩
    · have hpk := processKey_frame deps st key
      have hlim2 : limit ≤ (processKey deps st key).processedCharacters :=
        le_trans h hpk.2.2.2
      rw [crawlLoop_cons_limit crawlerName seed limit deps startIdx i key rest st hskip hlim2]
      refine ⟨?_, rfl, ?_⟩
      · simp only
        rw [hpk.1]
      · exact hpk.2.2.2

/-- C10: a resumed run seeds its processed-character counter from the saved
value; when that saved value already meets the limit and at least one key
remains, the run processes exactly one key, stops with LIMIT_REACHED and
never drops below the saved counter, so the limit bounds the cumulative
total across runs. -/
theorem crawler_resume_limit (config : CrawlerConfig) (deps : CrawlerDeps) (p : ProgressData)
    (hdry : config.dryRun = false)
    (hlim : config.limit.getD DEFAULT_LIMIT ≤ p.processedCharacters)
    (hge : -1 ≤ p.lastCompletedShuffledIndex)
    (hrem : p.lastCompletedShuffledIndex + 1 < (deps.keys.length : Int)) :
    (crawlerStart config deps (some p)).1.processedKeys = 1 ∧
    (crawlerStart config deps (some p)).1.exitReason = ExitReason.LIMIT_REACHED ∧
    p.processedCharacters ≤ (crawlerStart config deps (some p)).1.processedCharacters := by
  simp only [crawlerStart_resumed config deps p hdry]
  have htlt : (p.lastCompletedShuffledIndex + 1).toNat < deps.keys.enum.length := by
    rw [List.enum_length]
    omega
  have hex : ∃ ik ∈ deps.keys.enum, ¬ ((ik.1 : Int) < p.lastCompletedShuffledIndex + 1) := by
    refine ⟨deps.keys.enum.get ⟨(p.lastCompletedShuffledIndex + 1).toNat, htlt⟩,
      List.get_mem _ _ _, ?_⟩
    rw [List.get_eq_getElem, List.getElem_enum]
    simp only
    omega
  have h := crawlLoop_over_limit config.crawlerName (config.seed.getD DEFAULT_SEED)
    (config.limit.getD DEFAULT_LIMIT) deps (p.lastCompletedShuffledIndex + 1)
    deps.keys.enum ⟨0, deps.keys.length, p.processedCharacters, 0, 0, ExitReason.COMPLETED⟩
    hlim hex
  exact ⟨h.1, h.2.1, h.2.2⟩

/-- Concrete dependencies for the resume-limit witness: two keys, no
characters found. -/
def resumeWitnessDeps : CrawlerDeps :=
  { keys := [⟨0, "w", 1, "t", 1⟩, ⟨1, "w", 1, "t", 2⟩],
    fetchAllCharacterIds := fun _ => [],
    scrape := fun c => ⟨true, c, 0, []⟩,
    characterExists := fun _ => false }

/-- Concrete saved progress for the resume-limit witness: 5 characters
already processed. -/
def resumeWitnessProg : ProgressData := ⟨"crawler", -1, 2, 5, "", 42, none⟩

/-- Witness for crawler_resume_limit: limit 1 is already met by the saved
counter, so the resumed run stops after one key. -/
theorem crawler_resume_limit_witness :
    (crawlerStart ⟨"crawler", false, some 1, none⟩ resumeWitnessDeps
        (some resumeWitnessProg)).1.processedKeys = 1 ∧
    (crawlerStart ⟨"crawler", false, some 1, none⟩ resumeWitnessDeps
        (some resumeWitnessProg)).1.exitReason = ExitReason.LIMIT_REACHED ∧
    resumeWitnessProg.processedCharacters ≤
      (crawlerStart ⟨"crawler", false, some 1, none⟩ resumeWitnessDeps
        (some resumeWitnessProg)).1.processedCharacters :=
  crawler_resume_limit ⟨"crawler", false, some 1, none⟩ resumeWitnessDeps resumeWitnessProg
    rfl (by decide) (by decide) (by decide)

/-- Concrete dependencies exhibiting the final-checkpoint index regression:
two keys, the second yielding no characters. -/
def regressionDeps : CrawlerDeps :=
  { keys := [⟨0, "w", 1, "t", 1⟩, ⟨1, "w", 1, "t", 2⟩],
    fetchAllCharacterIds := fun _ => [],
    scrape := fun c => ⟨true, c, 0, []⟩,
    characterExists := fun _ => false }

/-- Concrete saved progress exhibiting the regression: shuffled position 0
already completed. -/
def regressionProg : ProgressData := ⟨"crawler", 0, 2, 0, "", 42, none⟩

/-- C2, evaluated at the failing input: a run resumed after shuffled
position 0 checkpoints position 1 for its one processed key, but the final
checkpoint (the one carrying the exit reason) stores
processedKeys - 1 = 0, so the stored lastCompletedShuffledIndex sequence
1, 0 decreases within the run, contradicting the claimed invariant. -/
theorem crawler_checkpoint_regression :
    ((crawlerStart ⟨"crawler", false, none, none⟩ regressionDeps (some regressionProg)).2.map
        (fun s => (s.lastCompletedShuffledIndex, s.exitReason)))
      = [((1 : Int), none), ((0 : Int), some ExitReason.COMPLETED)] ∧
    ¬ List.Chain' (fun x y => x ≤ y)
        ((crawlerStart ⟨"crawler", false, none, none⟩ regressionDeps
            (some regressionProg)).2.map (fun s => s.lastCompletedShuffledIndex)) := by
  constructor
  · rfl
  · have hmap : (crawlerStart ⟨"crawler", false, none, none⟩ regressionDeps
        (some regressionProg)).2.map (fun s => s.lastCompletedShuffledIndex)
          = [(1 : Int), 0] := rfl
    rw [hmap]
    intro hch
    rw [List.chain'_cons] at hch
    have h10 := hch.1
    omega

/-- A new character with a successful scrape that saved rows counts as
processed. -/
lemma processCharacter_new (deps : CrawlerDeps) (st : CrawlerStats) (c : String)
    (hex : deps.characterExists c = false)
    (hs : (deps.scrape c).success = true)
    (hp : 0 < (deps.scrape c).savedCount) :
    processCharacter deps st c
      = { st with processedCharacters := st.processedCharacters + 1 } := by
  rw [processCharacter, if_neg (by simp [hex]), if_pos hs, if_pos hp]

/-- C1: (general) a non-dry-run crawl ends COMPLETED exactly when every
per-key checkpoint stays below the limit, and never continues past a key
whose checkpoint reached the limit, i.e. it stops with LIMIT_REACHED as
soon as the cumulative count reaches the limit, even mid-key-list;
(scenario) resumed with 2 characters already counted, limit 4 and two
remaining keys each yielding 2 new characters, the run ends after the
first key with processedCharacters 4, LIMIT_REACHED and processedKeys 1,
while limit 100 on the same inputs runs both keys to COMPLETED with
processedKeys 2. -/
theorem crawler_limit_scenarios :
    (∀ (config : CrawlerConfig) (deps : CrawlerDeps) (prog : Option ProgressData),
      config.dryRun = false →
      (((crawlerStart config deps prog).1.exitReason = ExitReason.COMPLETED ↔
          ∀ s ∈ (crawlerStart config deps prog).2.dropLast,
            s.processedCharacters < config.limit.getD DEFAULT_LIMIT) ∧
        ∀ s ∈ (crawlerStart config deps prog).2.dropLast.dropLast,
          s.processedCharacters < config.limit.getD DEFAULT_LIMIT)) ∧
    (∀ (name : String) (sd : Option Nat) (deps : CrawlerDeps) (p : ProgressData)
        (kp k0 k1 : SearchKey) (c1 c2 c3 c4 : String),
      deps.keys = [kp, k0, k1] →
      p.lastCompletedShuffledIndex = 0 →
      p.processedCharacters = 2 →
      deps.fetchAllCharacterIds k0 = [c1, c2] →
      deps.fetchAllCharacterIds k1 = [c3, c4] →
      (∀ c ∈ [c1, c2, c3, c4], deps.characterExists c = false) →
      (∀ c ∈ [c1, c2, c3, c4],
        (deps.scrape c).success = true ∧ 0 < (deps.scrape c).savedCount) →
      ((crawlerStart ⟨name, false, some 4, sd⟩ deps (some p)).1.processedCharacters = 4 ∧
        (crawlerStart ⟨name, false, some 4, sd⟩ deps (some p)).1.exitReason
          = ExitReason.LIMIT_REACHED ∧
        (crawlerStart ⟨name, false, some 4, sd⟩ deps (some p)).1.processedKeys = 1)) ∧
    (∀ (name : String) (sd : Option Nat) (deps : CrawlerDeps) (p : ProgressData)
        (kp k0 k1 : SearchKey) (c1 c2 c3 c4 : String),
      deps.keys = [kp, k0, k1] →
      p.lastCompletedShuffledIndex = 0 →
      p.processedCharacters = 2 →
      deps.fetchAllCharacterIds k0 = [c1, c2] →
      deps.fetchAllCharacterIds k1 = [c3, c4] →
      (∀ c ∈ [c1, c2, c3, c4], deps.characterExists c = false) →
      (∀ c ∈ [c1, c2, c3, c4],
        (deps.scrape c).success = true ∧ 0 < (deps.scrape c).savedCount) →
      ((crawlerStart ⟨name, false, some 100, sd⟩ deps (some p)).1.processedKeys = 2 ∧
        (crawlerStart ⟨name, false, some 100, sd⟩ deps (some p)).1.exitReason
          = ExitReason.COMPLETED)) := by
  have hscen : ∀ (name : String) (sd : Option Nat) (deps : CrawlerDeps) (p : ProgressData)
      (kp k0 k1 : SearchKey) (c1 c2 c3 c4 : String) (limit : Nat),
      deps.keys = [kp, k0, k1] →
      p.lastCompletedShuffledIndex = 0 →
      p.processedCharacters = 2 →
      deps.fetchAllCharacterIds k0 = [c1, c2] →
      deps.fetchAllCharacterIds k1 = [c3, c4] →
      (∀ c ∈ [c1, c2, c3, c4], deps.characterExists c = false) →
      (∀ c ∈ [c1, c2, c3, c4],
        (deps.scrape c).success = true ∧ 0 < (deps.scrape c).savedCount) →
      crawlLoop name (sd.getD DEFAULT_SEED) limit deps (p.lastCompletedShuffledIndex + 1)
          deps.keys.enum ⟨0, deps.keys.length, p.processedCharacters, 0, 0,
            ExitReason.COMPLETED⟩
        = (if limit ≤ 4 then
            (⟨1, 3, 4, 0, 0, ExitReason.LIMIT_REACHED⟩,
              [⟨name, 1, 3, 4, sd.getD DEFAULT_SEED, none⟩])
          else if limit ≤ 6 then
            (⟨2, 3, 6, 0, 0, ExitReason.LIMIT_REACHED⟩,
              [⟨name, 1, 3, 4, sd.getD DEFAULT_SEED, none⟩,
               ⟨name, 2, 3, 6, sd.getD DEFAULT_SEED, none⟩])
          else
            (⟨2, 3, 6, 0, 0, ExitReason.COMPLETED⟩,
              [⟨name, 1, 3, 4, sd.getD DEFAULT_SEED, none⟩,
               ⟨name, 2, 3, 6, sd.getD DEFAULT_SEED, none⟩])) := by
    intro name sd deps p kp k0 k1 c1 c2 c3 c4 limit hkeys hplast hppc hf0 hf1 hex hsc
    have henum : deps.keys.enum = [(0, kp), (1, k0), (2, k1)] := by rw [hkeys]; rfl
    have hlen : deps.keys.length = 3 := by rw [hkeys]; rfl
    have hpk0 : ∀ st : CrawlerStats, processKey deps st k0
        = { st with processedCharacters := st.processedCharacters + 2 } := by
      intro st
      rw [processKey, hf0, List.foldl_cons,
        processCharacter_new deps st c1 (hex c1 (by simp)) (hsc c1 (by simp)).1
          (hsc c1 (by simp)).2,
        List.foldl_cons,
        processCharacter_new deps _ c2 (hex c2 (by simp)) (hsc c2 (by simp)).1
          (hsc c2 (by simp)).2,
        List.foldl_nil]
    have hpk1 : ∀ st : CrawlerStats, processKey deps st k1
        = { st with processedCharacters := st.processedCharacters + 2 } := by
      intro st
      rw [processKey, hf1, List.foldl_cons,
        processCharacter_new deps st c3 (hex c3 (by simp)) (hsc c3 (by simp)).1
          (hsc c3 (by simp)).2,
        List.foldl_cons,
        processCharacter_new deps _ c4 (hex c4 (by simp)) (hsc c4 (by simp)).1
          (hsc c4 (by simp)).2,
        List.foldl_nil]
    rw [henum, hlen, hplast, hppc]
    rw [crawlLoop_cons_skip _ _ _ _ _ 0 kp _ _ (by norm_num)]
    by_cases h4 : limit ≤ 4
    · rw [crawlLoop_cons_limit _ _ _ _ _ 1 k0 _ _ (by norm_num)
        (by rw [hpk0]; exact h4)]
      rw [if_pos h4, hpk0]
      rfl
    · rw [crawlLoop_cons_go _ _ _ _ _ 1 k0 _ _ (by norm_num) (by rw [hpk0]; exact h4)]
      rw [if_neg h4]
      by_cases h6 : limit ≤ 6
      · rw [hpk0]
        rw [crawlLoop_cons_limit _ _ _ _ _ 2 k1 _ _ (by norm_num)
          (by rw [hpk1]; exact h6)]
        rw [if_pos h6, hpk1]
        rfl
      · rw [hpk0]
        rw [crawlLoop_cons_go _ _ _ _ _ 2 k1 _ _ (by norm_num) (by rw [hpk1]; exact h6)]
        rw [if_neg h6, hpk1]
        rw [crawlLoop]
        rfl
  refine ⟨?_, ?_, ?_⟩
  · intro config deps prog hdry
    rcases prog with _ | p
    · simp only [crawlerStart_fresh config deps hdry]
      rw [List.dropLast_concat]
      have h := crawlLoop_limit config.crawlerName (config.seed.getD DEFAULT_SEED)
        (config.limit.getD DEFAULT_LIMIT) deps 0 deps.keys.enum
        ⟨0, deps.keys.length, 0, 0, 0, ExitReason.COMPLETED⟩ rfl
      exact ⟨h.1, h.2⟩
    · simp only [crawlerStart_resumed config deps p hdry]
      rw [List.dropLast_concat]
      have h := crawlLoop_limit config.crawlerName (config.seed.getD DEFAULT_SEED)
        (config.limit.getD DEFAULT_LIMIT) deps (p.lastCompletedShuffledIndex + 1)
        deps.keys.enum ⟨0, deps.keys.length, p.processedCharacters, 0, 0,
          ExitReason.COMPLETED⟩ rfl
      exact ⟨h.1, h.2⟩
  · intro name sd deps p kp k0 k1 c1 c2 c3 c4 hkeys hplast hppc hf0 hf1 hex hsc
    have hrun := hscen name sd deps p kp k0 k1 c1 c2 c3 c4 4 hkeys hplast hppc hf0 hf1 hex hsc
    rw [if_pos (by norm_num)] at hrun
    simp only [crawlerStart_resumed ⟨name, false, some 4, sd⟩ deps p rfl,
      Option.getD_some]
    rw [hrun]
    exact ⟨rfl, rfl, rfl⟩
  · intro name sd deps p kp k0 k1 c1 c2 c3 c4 hkeys hplast hppc hf0 hf1 hex hsc
    have hrun := hscen name sd deps p kp k0 k1 c1 c2 c3 c4 100 hkeys hplast hppc hf0 hf1 hex hsc
    rw [if_neg (by norm_num), if_neg (by norm_num)] at hrun
    simp only [crawlerStart_resumed ⟨name, false, some 100, sd⟩ deps p rfl,
      Option.getD_some]
    rw [hrun]
    exact ⟨rfl, rfl⟩

/-- Concrete dependencies for the limit-scenario witness: three keys, the
second and third each yielding two fresh characters. -/
def scenarioDeps : CrawlerDeps :=
  { keys := [⟨0, "w", 1, "t", 1⟩, ⟨1, "w", 1, "t", 2⟩, ⟨2, "w", 1, "t", 3⟩],
    fetchAllCharacterIds := fun k =>
      if k.gcid = 2 then ["a", "b"] else if k.gcid = 3 then ["c", "d"] else [],
    scrape := fun c => ⟨true, c, 1, []⟩,
    characterExists := fun _ => false }

/-- Concrete saved progress for the limit-scenario witness: first key
completed, two characters already counted. -/
def scenarioProg : ProgressData := ⟨"crawler", 0, 3, 2, "", 42, none⟩

/-- Witness for crawler_limit_scenarios: the limit-4 scenario at the
concrete dependencies. -/
theorem crawler_limit_scenarios_witness :
    (crawlerStart ⟨"crawler", false, some 4, none⟩ scenarioDeps
        (some scenarioProg)).1.processedCharacters = 4 ∧
    (crawlerStart ⟨"crawler", false, some 4, none⟩ scenarioDeps
        (some scenarioProg)).1.exitReason = ExitReason.LIMIT_REACHED ∧
    (crawlerStart ⟨"crawler", false, some 4, none⟩ scenarioDeps
        (some scenarioProg)).1.processedKeys = 1 :=
  crawler_limit_scenarios.2.1 "crawler" none scenarioDeps scenarioProg
    ⟨0, "w", 1, "t", 1⟩ ⟨1, "w", 1, "t", 2⟩ ⟨2, "w", 1, "t", 3⟩ "a" "b" "c" "d"
    rfl rfl rfl (by decide) (by decide)
    (fun c _ => rfl) (fun c _ => ⟨rfl, Nat.one_pos⟩)

/-! ## Sync runner (apps/sync sync-runner.ts with aggregator.ts) -/

/-- SyncOptions of the sync CLI. -/
structure SyncOptions where
  dryRun : Bool
  itemsOnly : Bool
  statsOnly : Bool

/-- SyncResult accumulated by runSync. -/
structure SyncResult where
  itemsInserted : Nat
  itemsSkipped : Nat
  usageInserted : Nat
  pairsInserted : Nat
  errors : List String
  deriving DecidableEq

/-- The stored progress blob as the aggregator reads it: only the optional
exit reason matters to the completeness gate. -/
structure CrawlProgressRow where
  exitReason : Option ExitReason
  deriving DecidableEq

/-- The database state the sync run reads: the first crawl_progress row
(the aggregator selects with limit 1), the raw glamour rows and the item
catalog. -/
structure SyncDb where
  crawlProgressFirst : Option CrawlProgressRow
  glamourRows : List GlamourRow
  itemsCache : List ExtractedItem

/-- isCrawlComplete of createAggregator: true exactly when the progress
row exists and its exitReason is COMPLETED or LIMIT_REACHED. -/
def isCrawlComplete (db : SyncDb) : Bool :=
  match db.crawlProgressFirst with
  | none => false
  | some p =>
    decide (p.exitReason = some ExitReason.COMPLETED) ||
    decide (p.exitReason = some ExitReason.LIMIT_REACHED)

/-- getDataDateRange of createAggregator: MIN and MAX of the raw rows'
fetch timestamps. -/
def getDataDateRange (db : SyncDb) : Option Nat × Option Nat :=
  ((db.glamourRows.map (fun r => r.fetchedAt)).min?,
   (db.glamourRows.map (fun r => r.fetchedAt)).max?)

/-- A writer-client call made by the sync run.  These are the publish
writes and session operations observable on the wire. -/
inductive SyncEvent
  | postItems (items : List ExtractedItem)
  | startSync
  | postUsage (version : String) (usage : List AggregatedUsage)
  | postPairs (version : String) (pairs : List AggregatedPair)
  | commitSync (version : String)
  | abortSync (version : String)
  deriving DecidableEq

/-- The writer client's behavior, one outcome per call the run can make;
an error value models a thrown error. -/
structure ClientBehavior where
  startSync : Except String String
  postItems : List ExtractedItem → Except String (Nat × Nat)
  postUsage : String → List AggregatedUsage → Except String Nat
  postPairs : String → List AggregatedPair → Except String Nat
  commitSync : String → Option Nat × Option Nat → Except String Unit
  abortSync : String → Except String Unit

/-- The blocking message pushed when the completeness gate refuses to
sync. -/
def BLOCK_MESSAGE : String := "Scraper not finished yet, skipping sync"

/-- The catch-block of the stats phase: the failure message is recorded,
then abortSync rolls the version back (a failing abort is recorded too).
Returns (usageInserted, pairsInserted, errors, events). -/
def statsAbort (client : ClientBehavior) (version : String) (errs : List String)
    (evts : List SyncEvent) (uIns pIns : Nat) : Nat × Nat × List String × List SyncEvent :=
  match client.abortSync version with
  | Except.ok _ => (uIns, pIns, errs, evts ++ [SyncEvent.abortSync version])
  | Except.error e =>
    (uIns, pIns, errs ++ ["Abort failed: " ++ e], evts ++ [SyncEvent.abortSync version])

/-- The stats phase of runSync: start a session, post usage, post pairs,
read the freshness range and commit; any failure is caught and the version
aborted (when one was allocated). -/
def statsPhase (db : SyncDb) (client : ClientBehavior) : Nat × Nat × List String × List SyncEvent :=
  match client.startSync with
  | Except.error e => (0, 0, ["Stats sync failed: " ++ e], [SyncEvent.startSync])
  | Except.ok version =>
    match client.postUsage version (aggregateUsage db.glamourRows) with
    | Except.error e =>
      statsAbort client version ["Stats sync failed: " ++ e]
        [SyncEvent.startSync, SyncEvent.postUsage version (aggregateUsage db.glamourRows)] 0 0
    | Except.ok uIns =>
      match client.postPairs version (aggregatePairs db.glamourRows) with
      | Except.error e =>
        statsAbort client version ["Stats sync failed: " ++ e]
          [SyncEvent.startSync, SyncEvent.postUsage version (aggregateUsage db.glamourRows),
           SyncEvent.postPairs version (aggregatePairs db.glamourRows)] uIns 0
      | Except.ok pIns =>
        match client.commitSync version (getDataDateRange db) with
        | Except.error e =>
          statsAbort client version ["Stats sync failed: " ++ e]
            [SyncEvent.startSync, SyncEvent.postUsage version (aggregateUsage db.glamourRows),
             SyncEvent.postPairs version (aggregatePairs db.glamourRows),
             SyncEvent.commitSync version] uIns pIns
        | Except.ok _ =>
          (uIns, pIns, [],
            [SyncEvent.startSync, SyncEvent.postUsage version (aggregateUsage db.glamourRows),
             SyncEvent.postPairs version (aggregatePairs db.glamourRows),
             SyncEvent.commitSync version])

/-- runSync of sync-runner.ts: outside dry-run the completeness gate is
checked first and a failing gate returns the blocking error with no call
made; then the items phase (unless stats-only) posts the item catalog, and
the stats phase (unless items-only, never in dry-run) runs the three-phase
versioned publish.  Cleanup is the source's deliberate no-op.  Returns the
result and the trace of writer-client calls. -/
def runSync (options : SyncOptions) (db : SyncDb) (client : ClientBehavior) :
    SyncResult × List SyncEvent :=
  if options.dryRun = false ∧ isCrawlComplete db = false then
    (⟨0, 0, 0, 0, [BLOCK_MESSAGE]⟩, [])
  else
    let itemsRes : Nat × Nat × List String × List SyncEvent :=
      if options.statsOnly = false ∧ options.dryRun = false then
        match client.postItems db.itemsCache with
        | Except.ok r => (r.1, r.2, [], [SyncEvent.postItems db.itemsCache])
        | Except.error e =>
          (0, 0, ["Items sync failed: " ++ e], [SyncEvent.postItems db.itemsCache])
      else (0, 0, [], [])
    let statsRes : Nat × Nat × List String × List SyncEvent :=
      if options.itemsOnly = false ∧ options.dryRun = false then statsPhase db client
      else (0, 0, [], [])
    (⟨itemsRes.1, itemsRes.2.1, statsRes.1, statsRes.2.1,
        itemsRes.2.2.1 ++ statsRes.2.2.1⟩,
      itemsRes.2.2.2 ++ statsRes.2.2.2)

/-- The stats phase always makes at least one call (the session start). -/
lemma statsPhase_events_ne_nil (db : SyncDb) (client : ClientBehavior) :
    (statsPhase db client).2.2.2 ≠ [] := by
  unfold statsPhase
  split
  · simp
  · split
    · unfold statsAbort
      split <;> simp
    · split
      · unfold statsAbort
        split <;> simp
      · split
        · unfold statsAbort
          split <;> simp
        · simp

/-- C3: outside dry-run, the sync refuses to proceed — its result is
exactly the blocking error and its writer-client trace is empty, so
nothing is uploaded and no sync session is started — if and only if the
latest crawl progress record lacks a non-empty exitReason; and the gate
passes exactly when a progress record exists carrying some exit reason. -/
theorem sync_completeness_gate (options : SyncOptions) (db : SyncDb)
    (client : ClientBehavior) (hdry : options.dryRun = false) :
    (((runSync options db client).1.errors = [BLOCK_MESSAGE] ∧
        (runSync options db client).2 = []) ↔ isCrawlComplete db = false) ∧
    (isCrawlComplete db = true ↔
      ∃ p, db.crawlProgressFirst = some p ∧ p.exitReason ≠ none) := by
  constructor
  · constructor
    · intro h
      cases hc : isCrawlComplete db
      · rfl
      · exfalso
        rw [runSync, if_neg (by simp [hc])] at h
        simp only at h
        rcases h with ⟨herr, hev⟩
        rcases List.append_eq_nil.mp hev with ⟨hev1, hev2⟩
        by_cases hso : options.statsOnly = false ∧ options.dryRun = false
        · rw [if_pos hso] at herr hev1
          rcases hpi : client.postItems db.itemsCache with e | r <;>
            rw [hpi] at hev1 <;> simp at hev1
        · rw [if_neg hso] at herr hev1
          by_cases hio : options.itemsOnly = false ∧ options.dryRun = false
          · rw [if_pos hio] at herr hev2
            exact statsPhase_events_ne_nil db client hev2
          · rw [if_neg hio] at herr hev2
            simp at herr
    · intro hc
      rw [runSync, if_pos ⟨hdry, hc⟩]
      exact ⟨rfl, rfl⟩
  · rw [isCrawlComplete]
    rcases hp : db.crawlProgressFirst with _ | p
    · constructor
      · intro h
        cases h
      · rintro ⟨q, hq, _⟩
        cases hq
    · constructor
      · intro h
        refine ⟨p, rfl, ?_⟩
        rcases Bool.or_eq_true_iff.mp h with h | h
        · rw [of_decide_eq_true h]
          simp
        · rw [of_decide_eq_true h]
          simp
      · rintro ⟨q, hq, hne⟩
        injection hq with h2
        subst h2
        rcases hr : p.exitReason with _ | r
        · exact absurd hr hne
        · rcases r with _ | _
          · simp [hr]
          · simp [hr]

/-- A trivial always-succeeding client used in the gate witness. -/
def gateWitnessClient : ClientBehavior :=
  { startSync := Except.ok "v1",
    postItems := fun _ => Except.ok (0, 0),
    postUsage := fun _ _ => Except.ok 0,
    postPairs := fun _ _ => Except.ok 0,
    commitSync := fun _ _ => Except.ok (),
    abortSync := fun _ => Except.ok () }

/-- A database whose crawl progress record has no exit reason yet. -/
def gateWitnessDb : SyncDb :=
  { crawlProgressFirst := some ⟨none⟩, glamourRows := [], itemsCache := [] }

/-- Witness for sync_completeness_gate: with an interrupted crawl the
non-dry-run sync blocks with an empty trace. -/
theorem sync_completeness_gate_witness :
    (runSync ⟨false, false, false⟩ gateWitnessDb gateWitnessClient).1.errors
        = [BLOCK_MESSAGE] ∧
      (runSync ⟨false, false, false⟩ gateWitnessDb gateWitnessClient).2 = [] :=
  (sync_completeness_gate ⟨false, false, false⟩ gateWitnessDb gateWitnessClient rfl).1.mpr rfl

end MirapuriStats
